import Mathlib

/-!
Shallow embedding of the pykan notebook `Example_6_PDE` (fitting a
Kolmogorov–Arnold Network to the 2D Poisson equation and distilling it into a
closed-form expression) and verification of the frozen claims about it.

The notebook is glue code around an external library (`kan`, `torch`): model
construction, automatic differentiation, the LBFGS optimizer, grid refinement,
symbolic fixing and formula extraction are library calls.  Following the spec's
scope, those library operations are modelled as an abstract oracle structure
(`LibOps`, and `LibOpsE` for the exception-aware semantics); everything the
notebook itself computes (sampling, the boundary mesh, the loss closure, the
training-loop schedule, the stage sequence) is embedded faithfully over `ℚ`,
with `torch.sin` and `torch.pi` abstracted as parameters.  Batched tensors
become lists; elementwise tensor operations on equal-shaped tensors become
`zip`/`map`; the mutable globals `pde_loss`/`bc_loss` (created by the `global`
statement inside the closure) become `Option ℚ` fields of the program state,
`none` before first assignment.
-/

namespace KanPDE

/-- A 2-dimensional sample point, i.e. one row of a `(B, 2)` tensor. -/
abbrev Point : Type := ℚ × ℚ

/-- Source: `dim = 2`. -/
def dim : ℕ := 2

/-- Source: `np_i = 21`, number of interior points along each dimension. -/
def np_i : ℕ := 21

/-- Source: `np_b = 21`, number of boundary points along each dimension
(declared in the notebook; the boundary is actually assembled from the `np_i`
meshgrid). -/
def np_b : ℕ := 21

/-- Source: `ranges = [-1, 1]`. -/
def ranges : ℚ × ℚ := (-1, 1)

/-- Embedding of `torch.linspace(lo, hi, steps)`: `steps` evenly spaced values
from `lo` to `hi` inclusive. -/
def linspace (lo hi : ℚ) (steps : ℕ) : List ℚ :=
  if steps = 1 then [lo]
  else (List.range steps).map (fun (i : ℕ) => lo + (hi - lo) * (i : ℚ) / ((steps : ℚ) - 1))

/-- Source: `x_mesh = torch.linspace(ranges[0], ranges[1], steps=np_i)`. -/
def x_mesh : List ℚ := linspace ranges.1 ranges.2 np_i

/-- Source: `y_mesh = torch.linspace(ranges[0], ranges[1], steps=np_i)`. -/
def y_mesh : List ℚ := linspace ranges.1 ranges.2 np_i

/-- First component of `X, Y = torch.meshgrid(x_mesh, y_mesh, indexing="ij")`:
`X[i][j] = x_mesh[i]`. -/
def meshX : List (List ℚ) := x_mesh.map (fun x => y_mesh.map (fun _ => x))

/-- Second component of the meshgrid: `Y[i][j] = y_mesh[j]`. -/
def meshY : List (List ℚ) := x_mesh.map (fun _ => y_mesh)

/-- Source: `helper = lambda X, Y:
torch.stack([X.reshape(-1,), Y.reshape(-1,)]).permute(1,0)`, pairing two
coordinate vectors into a `(B, 2)` batch. -/
def helper (X Y : List ℚ) : List Point := X.zip Y

/-- Source: `xb1 = helper(X[0], Y[0])`. -/
def xb1 : List Point := helper (meshX.headI) (meshY.headI)

/-- Source: `xb2 = helper(X[-1], Y[0])`. -/
def xb2 : List Point := helper (meshX.getLastD []) (meshY.headI)

/-- Source: `xb3 = helper(X[:,0], Y[:,0])`. -/
def xb3 : List Point := helper (meshX.map List.headI) (meshY.map List.headI)

/-- Source: `xb4 = helper(X[:,0], Y[:,-1])`. -/
def xb4 : List Point := helper (meshX.map List.headI) (meshY.map (List.getLastD · 0))

/-- Source: `x_b = torch.cat([xb1, xb2, xb3, xb4], dim=0)`. -/
def x_b : List Point := xb1 ++ xb2 ++ xb3 ++ xb4

/-- The mesh values in `Rat.divInt` normal form (`Rat.divInt` evaluates inside
the kernel, unlike the `@[irreducible]` field operations of `ℚ`); proved equal
to `x_mesh` below and used to make the concrete boundary-batch claims
decidable. -/
def mesh10 : List ℚ := (List.range 21).map (fun (i : ℕ) => Rat.divInt ((i : ℤ) - 10) 10)

/-- Embedding of the interior sampling `x_i = torch.rand((np_i**2, 2))*2-1`:
`rand` is the stream of `torch.rand` draws (each coordinate in `[0, 1)`),
transformed affinely by `*2-1`. -/
def sample (rand : ℕ → ℚ × ℚ) : List Point :=
  (List.range (np_i ^ 2)).map (fun k => ((rand k).1 * 2 - 1, (rand k).2 * 2 - 1))

/-- The notebook's `sampling_mode` flag, a Python string with values
`'mesh'` or `'random'`, modelled as an inductive type. -/
inductive SamplingMode : Type where
  | mesh : SamplingMode
  | random : SamplingMode
deriving DecidableEq

/-- Source: `sampling_mode = 'random'`. -/
def sampling_mode : SamplingMode := SamplingMode.random

/-- The `'mesh'` branch of the interior sampling:
`x_i = torch.stack([X.reshape(-1,), Y.reshape(-1,)]).permute(1,0)`. -/
def meshPoints : List Point := meshX.flatten.zip meshY.flatten

/-- The interior batch `x_i`, branching on `sampling_mode` as the notebook
does. -/
def interior (rand : ℕ → ℚ × ℚ) : List Point :=
  match sampling_mode with
  | SamplingMode.mesh => meshPoints
  | SamplingMode.random => sample rand

/-- Source: `steps = 20`. -/
def steps : ℕ := 20

/-- Source: `alpha = 0.1`. -/
def alpha : ℚ := 1 / 10

/-- Source: `log = 1`. -/
def log : ℕ := 1

/-- Mean of a batch, embedding `torch.mean` on a 1-d tensor. -/
def mean (l : List ℚ) : ℚ := l.sum / l.length

/-- Source: `sol_fun = lambda x:
torch.sin(torch.pi*x[:,[0]])*torch.sin(torch.pi*x[:,[1]])`, per row; `sinq`
and `piq` abstract `torch.sin` and `torch.pi`. -/
def sol_fun (sinq : ℚ → ℚ) (piq : ℚ) (p : Point) : ℚ :=
  sinq (piq * p.1) * sinq (piq * p.2)

/-- Source: `source_fun = lambda x:
-2*torch.pi**2 * torch.sin(torch.pi*x[:,[0]])*torch.sin(torch.pi*x[:,[1]])`,
per row. -/
def source_fun (sinq : ℚ → ℚ) (piq : ℚ) (p : Point) : ℚ :=
  -2 * piq ^ 2 * (sinq (piq * p.1) * sinq (piq * p.2))

/-- Result of one invocation of the training closure: the returned scalar
`loss` plus the values assigned to the globals `pde_loss` and `bc_loss`. -/
structure ClosureResult : Type where
  loss : ℚ
  pde_loss : ℚ
  bc_loss : ℚ

/-- Hyperparameters of the model construction
`KAN(width=[2,2,1], grid=5, k=3, grid_eps=1.0, noise_scale_base=0.25)`. -/
structure KANCfg : Type where
  width : List ℕ
  grid : ℕ
  k : ℕ
  grid_eps : ℚ
  noise_scale_base : ℚ
deriving DecidableEq

/-- The configuration used by the notebook. -/
def kanCfg : KANCfg :=
  { width := [2, 2, 1], grid := 5, k := 3, grid_eps := 1, noise_scale_base := 1 / 4 }

/-- Symbolic basis functions passed to `fix_symbolic`: the Python strings
`'x'` and `'sin'`. -/
inductive SymFn : Type where
  | x : SymFn
  | sin : SymFn
deriving DecidableEq

/-- The external-library oracle (the `kan`/`torch` API the notebook calls).
`θ` is the model's parameter state, `σ` the LBFGS optimizer's internal state,
`φ` the type of extracted symbolic formulas.  `jacobian` is the per-point
automatic-differentiation oracle behind `autograd.functional.jacobian`;
`lbfgsStep` runs `optimizer.step(closure)`, returning the new optimizer state,
the updated parameters, and the result of the last closure invocation its
line search performed (which is what the globals `pde_loss`/`bc_loss` hold
afterwards). -/
structure LibOps (θ σ φ : Type) : Type where
  mkModel : KANCfg → θ
  forward : θ → Point → ℚ
  jacobian : θ → (Point → List ℚ) → Point → List (List ℚ)
  update_grid_from_samples : θ → List Point → θ
  lbfgsInit : θ → σ
  lbfgsStep : σ → θ → (θ → ClosureResult) → σ × θ × ClosureResult
  plot : θ → ℚ → Unit
  fix_symbolic : θ → ℕ → ℕ → ℕ → SymFn → θ × ℚ
  symbolic_formula : θ → ℕ → φ

/-- Embedding of the notebook's
`batch_jacobian(func, x)`: Python sums the batched function over the batch,
differentiates, and permutes back.  Because every output row of the batched
functions it is applied to depends only on the matching input row, entry `b`
of the result is the per-point Jacobian at row `b`, supplied by the abstract
AD oracle `jac` (AD internals are out of scope per the spec). -/
def batch_jacobian (jac : (Point → List ℚ) → Point → List (List ℚ))
    (func : Point → List ℚ) (x : List Point) : List (List (List ℚ)) :=
  x.map (jac func)

/-- Embedding of `torch.diagonal(M, dim1=1, dim2=2)` for one row: the diagonal
of a matrix given as a list of rows. -/
def diagonal (M : List (List ℚ)) : List ℚ :=
  (List.range (min M.length M.headI.length)).map (fun i => (M.getD i []).getD i 0)

/-- The training closure, translated line by line from the notebook.  It reads
the current model (`p`), the interior batch `xi` and the boundary batch `xb`;
it returns the scalar loss and the values written to the globals `pde_loss`
and `bc_loss`.  `_sol` and `_sol_D1` are computed but never used, exactly as
in the source. -/
def closure {θ σ φ : Type} (lib : LibOps θ σ φ) (sinq : ℚ → ℚ) (piq : ℚ)
    (xi xb : List Point) (p : θ) : ClosureResult :=
  let _sol := xi.map (sol_fun sinq piq)
  let sol_D1_fun : Point → List ℚ :=
    fun q => ((lib.jacobian p) (fun r => [lib.forward p r]) q).headI
  let _sol_D1 := xi.map sol_D1_fun
  let sol_D2 := batch_jacobian (lib.jacobian p) sol_D1_fun xi
  let lap := sol_D2.map (fun M => (diagonal M).sum)
  let source := xi.map (source_fun sinq piq)
  let pde_loss := mean ((lap.zip source).map (fun z => (z.1 - z.2) ^ 2))
  let bc_true := xb.map (sol_fun sinq piq)
  let bc_pred := xb.map (lib.forward p)
  let bc_loss := mean ((bc_pred.zip bc_true).map (fun z => (z.1 - z.2) ^ 2))
  { loss := alpha * pde_loss + bc_loss, pde_loss := pde_loss, bc_loss := bc_loss }

/-- The notebook's module-level mutable state: the model parameters (updated
in place by the optimizer), the globals `pde_loss`/`bc_loss` created by the
closure's `global` statement (`none` before their first assignment), and the
sampled batches `x_i`/`x_b`. -/
structure ProgState (θ : Type) : Type where
  params : θ
  pde_loss : Option ℚ
  bc_loss : Option ℚ
  x_i : List Point
  x_b : List Point

/-- Observable actions of one training iteration, recording which batches each
operation received. -/
inductive Event : Type where
  | gridUpdate : ℕ → List Point → Event
  | stepCall : List Point → List Point → Event
  | l2Report : List Point → Event
deriving DecidableEq

/-- The guard `_ % 5 == 0 and _ < 50` of the grid-update call. -/
def gridCond (i : ℕ) : Bool := i % 5 == 0 && i < 50

/-- The events of iteration `i` of the training loop. -/
def iterEvents (xi xb : List Point) (i : ℕ) : List Event :=
  (if gridCond i then [Event.gridUpdate i xi] else [])
    ++ [Event.stepCall xi xb, Event.l2Report xi]

/-- One iteration of the loop body of `fit()`: the conditional
`update_grid_from_samples`, then `optimizer.step(closure)`, then the `l2`
report.  The accumulator carries (optimizer state, params, global `pde_loss`,
global `bc_loss`) and the event trace.  `_sol`, `_loss` and `_l2` are the
post-step reads the notebook performs for its progress bar. -/
def fitIter {θ σ φ : Type} (lib : LibOps θ σ φ) (sinq : ℚ → ℚ) (piq : ℚ)
    (xi xb : List Point) (acc : (σ × θ × Option ℚ × Option ℚ) × List Event)
    (i : ℕ) : (σ × θ × Option ℚ × Option ℚ) × List Event :=
  let o := acc.1.1
  let p := acc.1.2.1
  let p1 := if gridCond i then lib.update_grid_from_samples p xi else p
  let s := lib.lbfgsStep o p1 (closure lib sinq piq xi xb)
  let _sol := xi.map (sol_fun sinq piq)
  let _loss := alpha * s.2.2.pde_loss + s.2.2.bc_loss
  let _l2 := mean (xi.map (fun q => (lib.forward s.2.1 q - sol_fun sinq piq q) ^ 2))
  ((s.1, s.2.1, some s.2.2.pde_loss, some s.2.2.bc_loss), acc.2 ++ iterEvents xi xb i)

/-- The loop `for _ in pbar:` of `fit()`, over iteration indices
`0, …, n-1`. -/
def fitLoop {θ σ φ : Type} (lib : LibOps θ σ φ) (sinq : ℚ → ℚ) (piq : ℚ)
    (xi xb : List Point) (n : ℕ) (o : σ) (p : θ) (pl bl : Option ℚ) :
    (σ × θ × Option ℚ × Option ℚ) × List Event :=
  (List.range n).foldl (fitIter lib sinq piq xi xb) ((o, p, pl, bl), [])

/-- Embedding of `fit()`: constructs a brand-new LBFGS optimizer over the
current parameters (`lib.lbfgsInit st.params`), runs `n` loop iterations, and
returns the updated program state (the local optimizer is discarded) together
with the event trace. -/
def fit {θ σ φ : Type} (lib : LibOps θ σ φ) (sinq : ℚ → ℚ) (piq : ℚ)
    (n : ℕ) (st : ProgState θ) : ProgState θ × List Event :=
  let optimizer := lib.lbfgsInit st.params
  let r := fitLoop lib sinq piq st.x_i st.x_b n optimizer st.params st.pde_loss st.bc_loss
  ({ st with params := r.1.2.1, pde_loss := r.1.2.2.1, bc_loss := r.1.2.2.2 }, r.2)

/-- The interior batch an event used. -/
def usesInterior : Event → List Point
  | Event.gridUpdate _ b => b
  | Event.stepCall bi _ => bi
  | Event.l2Report b => b

/-- Extracts the iteration index of a grid-update event. -/
def gridIter : Event → Option ℕ
  | Event.gridUpdate i _ => some i
  | _ => none

/-- The notebook's top-level stages. -/
inductive Stage : Type where
  | modelInit : KANCfg → Stage
  | sampleInterior : Stage
  | sampleBoundary : Stage
  | fitPass : ℕ → Stage
  | plotCall : Stage
  | fixSym : ℕ → ℕ → ℕ → SymFn → Stage
  | extractFormula : Stage
deriving DecidableEq

/-- The first symbolic-fixing cell:
`for i in range(2): for j in range(2): model.fix_symbolic(0, i, j, 'x')`,
returning the updated parameters and the performed stages. -/
def fixStage1 {θ σ φ : Type} (lib : LibOps θ σ φ) (p : θ) : θ × List Stage :=
  (List.range 2).foldl (fun acc i =>
    (List.range 2).foldl (fun acc2 j =>
      ((lib.fix_symbolic acc2.1 0 i j SymFn.x).1,
        acc2.2 ++ [Stage.fixSym 0 i j SymFn.x])) acc) (p, [])

/-- The second symbolic-fixing cell:
`for i in range(2): model.fix_symbolic(1, i, 0, 'sin')`. -/
def fixStage2 {θ σ φ : Type} (lib : LibOps θ σ φ) (p : θ) : θ × List Stage :=
  (List.range 2).foldl (fun acc i =>
    ((lib.fix_symbolic acc.1 1 i 0 SymFn.sin).1,
      acc.2 ++ [Stage.fixSym 1 i 0 SymFn.sin])) (p, [])

/-- The whole notebook, cell by cell: model construction, sampling, first
training pass, plotting, the two symbolic-fixing loops, second training pass,
formula extraction.  Returns the final program state and formula, the training
event trace (of both passes, in order), and the stage trace. -/
def notebook {θ σ φ : Type} (lib : LibOps θ σ φ) (sinq : ℚ → ℚ) (piq : ℚ)
    (rand : ℕ → ℚ × ℚ) : (ProgState θ × φ) × List Event × List Stage :=
  let m0 := lib.mkModel kanCfg
  let xi := interior rand
  let xb := x_b
  let st0 : ProgState θ := ⟨m0, none, none, xi, xb⟩
  let r1 := fit lib sinq piq steps st0
  let _fig := lib.plot r1.1.params 10
  let f1 := fixStage1 lib r1.1.params
  let f2 := fixStage2 lib f1.1
  let st2 : ProgState θ := { r1.1 with params := f2.1 }
  let r2 := fit lib sinq piq steps st2
  let formula := lib.symbolic_formula r2.1.params 5
  ((r2.1, formula),
    r1.2 ++ r2.2,
    [Stage.modelInit kanCfg, Stage.sampleInterior, Stage.sampleBoundary,
      Stage.fitPass steps, Stage.plotCall]
      ++ f1.2 ++ f2.2 ++ [Stage.fitPass steps, Stage.extractFormula])

/-- Restriction of a stage trace to the stages named by the claimed sequence
(sampling, training passes, symbolic fixing, formula extraction). -/
def mainStages : List Stage → List Stage :=
  List.filter (fun s =>
    match s with
    | Stage.modelInit _ => false
    | Stage.plotCall => false
    | _ => true)

/-- The external-library oracle in the exception-aware semantics: every
operation may raise (return `Except.error`), standing for whatever exception
the library throws (non-convergence, shape mismatch, singular Jacobian, …).
The notebook composes these calls with no `try`/`except` of its own, which the
embedding renders as plain monadic bind. -/
structure LibOpsE (θ σ φ ε : Type) : Type where
  mkModel : KANCfg → Except ε θ
  forward : θ → Point → Except ε ℚ
  jacobian : θ → (Point → Except ε (List ℚ)) → Point → Except ε (List (List ℚ))
  update_grid_from_samples : θ → List Point → Except ε θ
  lbfgsInit : θ → Except ε σ
  lbfgsStep : σ → θ → (θ → Except ε ClosureResult) → Except ε (σ × θ × ClosureResult)
  plot : θ → ℚ → Except ε Unit
  fix_symbolic : θ → ℕ → ℕ → ℕ → SymFn → Except ε (θ × ℚ)
  symbolic_formula : θ → ℕ → Except ε φ

/-- The per-row model output as a 1-element vector, in the exception-aware
semantics: the function handed to the inner `batch_jacobian(model, x)` call. -/
def fwdRowE {θ σ φ ε : Type} (lib : LibOpsE θ σ φ ε) (p : θ) (r : Point) :
    Except ε (List ℚ) := do
  pure [← lib.forward p r]

/-- The notebook's `sol_D1_fun` (the per-row gradient
`batch_jacobian(model, x)[:,0,:]`) in the exception-aware semantics. -/
def sol_D1_funE {θ σ φ ε : Type} (lib : LibOpsE θ σ φ ε) (p : θ) (q : Point) :
    Except ε (List ℚ) := do
  pure (← lib.jacobian p (fwdRowE lib p) q).headI

/-- The training closure in the exception-aware semantics; any library
exception propagates out unchanged. -/
def closureE {θ σ φ ε : Type} (lib : LibOpsE θ σ φ ε) (sinq : ℚ → ℚ) (piq : ℚ)
    (xi xb : List Point) (p : θ) : Except ε ClosureResult := do
  let _sol := xi.map (sol_fun sinq piq)
  let _sol_D1 ← xi.mapM (sol_D1_funE lib p)
  let sol_D2 ← xi.mapM (fun q => lib.jacobian p (sol_D1_funE lib p) q)
  let lap := sol_D2.map (fun M => (diagonal M).sum)
  let source := xi.map (source_fun sinq piq)
  let pde := mean ((lap.zip source).map (fun z => (z.1 - z.2) ^ 2))
  let bc_true := xb.map (sol_fun sinq piq)
  let bc_pred ← xb.mapM (lib.forward p)
  let bc := mean ((bc_pred.zip bc_true).map (fun z => (z.1 - z.2) ^ 2))
  pure { loss := alpha * pde + bc, pde_loss := pde, bc_loss := bc }

/-- One iteration of the `fit()` loop in the exception-aware semantics. -/
def fitIterE {θ σ φ ε : Type} (lib : LibOpsE θ σ φ ε) (sinq : ℚ → ℚ) (piq : ℚ)
    (xi xb : List Point) (acc : σ × θ × Option ℚ × Option ℚ) (i : ℕ) :
    Except ε (σ × θ × Option ℚ × Option ℚ) := do
  let p1 ← if gridCond i then lib.update_grid_from_samples acc.2.1 xi else pure acc.2.1
  let s ← lib.lbfgsStep acc.1 p1 (closureE lib sinq piq xi xb)
  let _sol := xi.map (sol_fun sinq piq)
  let _loss := alpha * s.2.2.pde_loss + s.2.2.bc_loss
  let _l2pred ← xi.mapM (lib.forward s.2.1)
  pure (s.1, s.2.1, some s.2.2.pde_loss, some s.2.2.bc_loss)

/-- Embedding of `fit()` in the exception-aware semantics. -/
def fitE {θ σ φ ε : Type} (lib : LibOpsE θ σ φ ε) (sinq : ℚ → ℚ) (piq : ℚ)
    (n : ℕ) (st : ProgState θ) : Except ε (ProgState θ) := do
  let o0 ← lib.lbfgsInit st.params
  let r ← (List.range n).foldlM (fitIterE lib sinq piq st.x_i st.x_b)
    (o0, st.params, st.pde_loss, st.bc_loss)
  pure { st with params := r.2.1, pde_loss := r.2.2.1, bc_loss := r.2.2.2 }

/-- The whole notebook in the exception-aware semantics: every library call is
composed with bind and nothing is caught. -/
def notebookE {θ σ φ ε : Type} (lib : LibOpsE θ σ φ ε) (sinq : ℚ → ℚ) (piq : ℚ)
    (rand : ℕ → ℚ × ℚ) : Except ε (ProgState θ × φ) := do
  let m0 ← lib.mkModel kanCfg
  let st1 ← fitE lib sinq piq steps ⟨m0, none, none, interior rand, x_b⟩
  let _fig ← lib.plot st1.params 10
  let p1 ← (List.range 2).foldlM (fun p i =>
    (List.range 2).foldlM (fun p2 j => do
      pure (← lib.fix_symbolic p2 0 i j SymFn.x).1) p) st1.params
  let p2 ← (List.range 2).foldlM (fun p i => do
    pure (← lib.fix_symbolic p 1 i 0 SymFn.sin).1) p1
  let st2 ← fitE lib sinq piq steps { st1 with params := p2 }
  let formula ← lib.symbolic_formula st2.params 5
  pure (st2, formula)

/-- Holds when some operation of the library raises the exception `e` on some
input: the only way an exception can reach the notebook's top level. -/
def LibRaised {θ σ φ ε : Type} (lib : LibOpsE θ σ φ ε) (e : ε) : Prop :=
  (∃ c, lib.mkModel c = Except.error e) ∨
  (∃ p q, lib.forward p q = Except.error e) ∨
  (∃ p f q, lib.jacobian p f q = Except.error e) ∨
  (∃ p x, lib.update_grid_from_samples p x = Except.error e) ∨
  (∃ p, lib.lbfgsInit p = Except.error e) ∨
  (∃ o p f, lib.lbfgsStep o p f = Except.error e) ∨
  (∃ p b, lib.plot p b = Except.error e) ∨
  (∃ p l i j f, lib.fix_symbolic p l i j f = Except.error e) ∨
  (∃ p d, lib.symbolic_formula p d = Except.error e)

/-- Holds when no library operation ever raises (the higher-order operations
`jacobian` and `lbfgsStep` are only required to succeed when the function they
are handed never raises). -/
def TotalLibE {θ σ φ ε : Type} (lib : LibOpsE θ σ φ ε) : Prop :=
  (∀ c, ∃ v, lib.mkModel c = Except.ok v) ∧
  (∀ p q, ∃ v, lib.forward p q = Except.ok v) ∧
  (∀ p f q, (∀ r, ∃ w, f r = Except.ok w) → ∃ v, lib.jacobian p f q = Except.ok v) ∧
  (∀ p x, ∃ v, lib.update_grid_from_samples p x = Except.ok v) ∧
  (∀ p, ∃ v, lib.lbfgsInit p = Except.ok v) ∧
  (∀ o p f, (∀ t, ∃ w, f t = Except.ok w) → ∃ v, lib.lbfgsStep o p f = Except.ok v) ∧
  (∀ p b, ∃ v, lib.plot p b = Except.ok v) ∧
  (∀ p l i j f, ∃ v, lib.fix_symbolic p l i j f = Except.ok v) ∧
  (∀ p d, ∃ v, lib.symbolic_formula p d = Except.ok v)

/-- A trivial concrete exception-aware library instance in which no operation
ever raises. -/
def trivLibE : LibOpsE Unit Unit Unit Unit :=
  { mkModel := fun _ => Except.ok ()
    forward := fun _ _ => Except.ok 0
    jacobian := fun _ _ _ => Except.ok [[0, 0], [0, 0]]
    update_grid_from_samples := fun p _ => Except.ok p
    lbfgsInit := fun _ => Except.ok ()
    lbfgsStep := fun o p f => (f p).map (fun r => (o, p, r))
    plot := fun _ _ => Except.ok ()
    fix_symbolic := fun p _ _ _ _ => Except.ok (p, 1)
    symbolic_formula := fun _ _ => Except.ok () }

/-- A trivial concrete library instance, used to evaluate the embedding at
concrete inputs. -/
def trivLib : LibOps Unit Unit Unit :=
  { mkModel := fun _ => ()
    forward := fun _ _ => 0
    jacobian := fun _ _ _ => [[0, 0], [0, 0]]
    update_grid_from_samples := fun p _ => p
    lbfgsInit := fun _ => ()
    lbfgsStep := fun o p f => (o, p, f p)
    plot := fun _ _ => ()
    fix_symbolic := fun p _ _ _ _ => (p, 1)
    symbolic_formula := fun _ _ => () }

/-! ### Helper lemmas -/

/-- The linspace mesh in kernel-computable normal form. -/
theorem x_mesh_eq : x_mesh = mesh10 := by
  rw [x_mesh, linspace, mesh10, if_neg (by norm_num [np_i] : ¬ np_i = 1)]
  rw [show ranges = (-1, 1) from rfl, show np_i = 21 from rfl]
  refine List.map_congr_left (fun i _ => ?_)
  rw [Rat.divInt_eq_div]
  push_cast
  ring

/-- The `y`-mesh is literally the same computation as the `x`-mesh. -/
theorem y_mesh_eq : y_mesh = mesh10 := x_mesh_eq

/-- The first boundary edge in closed form: the edge `x = -1`. -/
theorem xb1_eq : xb1 = mesh10.map (fun y => ((-1 : ℚ), y)) := by
  unfold xb1 helper meshX meshY
  rw [x_mesh_eq, y_mesh_eq]
  decide

/-- The second boundary edge in closed form: the edge `x = +1`. -/
theorem xb2_eq : xb2 = mesh10.map (fun y => ((1 : ℚ), y)) := by
  unfold xb2 helper meshX meshY
  rw [x_mesh_eq, y_mesh_eq]
  decide

/-- The third boundary edge in closed form: the edge `y = -1`. -/
theorem xb3_eq : xb3 = mesh10.map (fun x => (x, (-1 : ℚ))) := by
  unfold xb3 helper meshX meshY
  rw [x_mesh_eq, y_mesh_eq]
  decide

/-- The fourth boundary edge in closed form: the edge `y = +1`. -/
theorem xb4_eq : xb4 = mesh10.map (fun x => (x, (1 : ℚ))) := by
  unfold xb4 helper meshX meshY
  rw [x_mesh_eq, y_mesh_eq]
  decide

/-- The whole boundary batch in closed form. -/
theorem x_b_eq :
    x_b = mesh10.map (fun y => ((-1 : ℚ), y)) ++ mesh10.map (fun y => ((1 : ℚ), y))
      ++ mesh10.map (fun x => (x, (-1 : ℚ))) ++ mesh10.map (fun x => (x, (1 : ℚ))) := by
  rw [x_b, xb1_eq, xb2_eq, xb3_eq, xb4_eq]

/-- Elementwise operations on two maps over the same batch collapse to a
single map: the list form of pointwise tensor arithmetic. -/
theorem map_zip_map {α β : Type} (f g : α → ℚ) (h : ℚ × ℚ → β) (l : List α) :
    ((l.map f).zip (l.map g)).map h = l.map (fun x => h (f x, g x)) := by
  induction l with
  | nil => rfl
  | cons a t ih => simp only [List.map_cons, List.zip_cons_cons, ih]

/-! ### Claim theorems -/

/-- C1: in every invocation of the training closure, the returned scalar loss
equals `alpha * pde_loss + bc_loss` with `alpha = 0.1`, where `pde_loss` is
the mean over the interior batch of the squared difference between the model's
Laplacian — the sum of the diagonal of the Hessian obtained by two nested
batched Jacobian calls — and the source term, and `bc_loss` is the mean over
the boundary batch of the squared difference between the model's output and
the analytic solution. -/
theorem C1_closure_loss {θ σ φ : Type} (lib : LibOps θ σ φ) (sinq : ℚ → ℚ) (piq : ℚ)
    (xi xb : List Point) (p : θ) :
    (closure lib sinq piq xi xb p).loss
      = alpha * (closure lib sinq piq xi xb p).pde_loss
        + (closure lib sinq piq xi xb p).bc_loss
    ∧ alpha = 1 / 10
    ∧ (closure lib sinq piq xi xb p).pde_loss
      = mean (xi.map (fun q =>
          ((diagonal (lib.jacobian p
              (fun r => (lib.jacobian p (fun t => [lib.forward p t]) r).headI) q)).sum
            - source_fun sinq piq q) ^ 2))
    ∧ (closure lib sinq piq xi xb p).bc_loss
      = mean (xb.map (fun q => (lib.forward p q - sol_fun sinq piq q) ^ 2)) := by
  refine ⟨rfl, rfl, ?_, ?_⟩
  · show mean ((((batch_jacobian (lib.jacobian p) _ xi).map _).zip
        (xi.map (source_fun sinq piq))).map _) = _
    rw [batch_jacobian, List.map_map, map_zip_map]
    simp only [Function.comp_apply]
  · show mean (((xb.map (lib.forward p)).zip (xb.map (sol_fun sinq piq))).map _) = _
    rw [map_zip_map]

/-- One loop iteration appends exactly its own events to the trace. -/
theorem fitIter_trace {θ σ φ : Type} (lib : LibOps θ σ φ) (sinq : ℚ → ℚ) (piq : ℚ)
    (xi xb : List Point) (acc : (σ × θ × Option ℚ × Option ℚ) × List Event) (i : ℕ) :
    (fitIter lib sinq piq xi xb acc i).2 = acc.2 ++ iterEvents xi xb i := rfl

/-- The trace of a fold of loop iterations. -/
theorem fitLoop_trace_gen {θ σ φ : Type} (lib : LibOps θ σ φ) (sinq : ℚ → ℚ) (piq : ℚ)
    (xi xb : List Point) (l : List ℕ) :
    ∀ acc : (σ × θ × Option ℚ × Option ℚ) × List Event,
      (l.foldl (fitIter lib sinq piq xi xb) acc).2 = acc.2 ++ l.flatMap (iterEvents xi xb) := by
  induction l with
  | nil => intro acc; simp
  | cons a t ih =>
      intro acc
      rw [List.foldl_cons, ih, fitIter_trace, List.flatMap_cons, List.append_assoc]

/-- The event trace of one training pass: the per-iteration events of
iterations `0, …, n-1`, in order. -/
theorem fit_trace {θ σ φ : Type} (lib : LibOps θ σ φ) (sinq : ℚ → ℚ) (piq : ℚ)
    (n : ℕ) (st : ProgState θ) :
    (fit lib sinq piq n st).2 = (List.range n).flatMap (iterEvents st.x_i st.x_b) := by
  show (fitLoop lib sinq piq st.x_i st.x_b n _ _ _ _).2 = _
  rw [fitLoop, fitLoop_trace_gen, List.nil_append]

/-- Training never changes the interior batch. -/
theorem fit_x_i {θ σ φ : Type} (lib : LibOps θ σ φ) (sinq : ℚ → ℚ) (piq : ℚ)
    (n : ℕ) (st : ProgState θ) : (fit lib sinq piq n st).1.x_i = st.x_i := rfl

/-- Training never changes the boundary batch. -/
theorem fit_x_b {θ σ φ : Type} (lib : LibOps θ σ φ) (sinq : ℚ → ℚ) (piq : ℚ)
    (n : ℕ) (st : ProgState θ) : (fit lib sinq piq n st).1.x_b = st.x_b := rfl

/-- Every event of an iteration uses the interior batch `xi`. -/
theorem iterEvents_usesInterior (xi xb : List Point) (i : ℕ) :
    ∀ ev ∈ iterEvents xi xb i, usesInterior ev = xi := by
  intro ev hev
  cases hg : gridCond i <;> simp [iterEvents, hg] at hev
  · rcases hev with rfl | rfl <;> rfl
  · rcases hev with rfl | rfl | rfl <;> rfl

/-- The full event trace of the notebook: the first pass followed by the
second pass, both over the same sampled batches. -/
theorem notebook_events {θ σ φ : Type} (lib : LibOps θ σ φ) (sinq : ℚ → ℚ) (piq : ℚ)
    (rand : ℕ → ℚ × ℚ) :
    (notebook lib sinq piq rand).2.1
      = (List.range steps).flatMap (iterEvents (interior rand) x_b)
        ++ (List.range steps).flatMap (iterEvents (interior rand) x_b) := by
  simp only [notebook, fit_trace, fit_x_i, fit_x_b]

/-- A `filterMap` distributes over `flatMap`. -/
theorem filterMap_flatMap {α β γ : Type} (l : List α) (g : α → List β) (h : β → Option γ) :
    (l.flatMap g).filterMap h = l.flatMap (fun a => (g a).filterMap h) := by
  induction l with
  | nil => rfl
  | cons a t ih => rw [List.flatMap_cons, List.filterMap_append, ih, List.flatMap_cons]

/-- The grid-update indices contributed by one iteration. -/
theorem iterEvents_gridIter (xi xb : List Point) (i : ℕ) :
    (iterEvents xi xb i).filterMap gridIter = if gridCond i then [i] else [] := by
  cases hg : gridCond i <;> simp [iterEvents, hg, gridIter, List.filterMap_cons]

/-- C2: the interior sampling step produces a single batch of exactly
`np_i² = 441` two-dimensional points, obtained by mapping the uniform
`torch.rand` draws (coordinates in `[0,1)`) affinely into the square
`[-1,1] × [-1,1]`, and this same batch is used unchanged by every loss
evaluation (the closure handed to the optimizer), grid update and l2 report
of both training passes. -/
theorem C2_interior_batch {θ σ φ : Type} (lib : LibOps θ σ φ) (sinq : ℚ → ℚ) (piq : ℚ)
    (rand : ℕ → ℚ × ℚ)
    (hr : ∀ k, 0 ≤ (rand k).1 ∧ (rand k).1 < 1 ∧ 0 ≤ (rand k).2 ∧ (rand k).2 < 1) :
    interior rand = sample rand
    ∧ np_i ^ 2 = 441
    ∧ (interior rand).length = 441
    ∧ (∀ p ∈ interior rand, -1 ≤ p.1 ∧ p.1 ≤ 1 ∧ -1 ≤ p.2 ∧ p.2 ≤ 1)
    ∧ (∀ ev ∈ (notebook lib sinq piq rand).2.1, usesInterior ev = interior rand) := by
  refine ⟨rfl, by norm_num [np_i], ?_, ?_, ?_⟩
  · show (sample rand).length = 441
    simp [sample, np_i]
  · intro p hp
    rw [show interior rand = sample rand from rfl, sample] at hp
    obtain ⟨k, _, rfl⟩ := List.mem_map.1 hp
    obtain ⟨h1, h2, h3, h4⟩ := hr k
    exact ⟨show -1 ≤ (rand k).1 * 2 - 1 by linarith,
      show (rand k).1 * 2 - 1 ≤ 1 by linarith,
      show -1 ≤ (rand k).2 * 2 - 1 by linarith,
      show (rand k).2 * 2 - 1 ≤ 1 by linarith⟩
  · intro ev hev
    rw [notebook_events] at hev
    rcases List.mem_append.1 hev with h | h <;>
      · obtain ⟨a, _, ha⟩ := List.mem_flatMap.1 h
        exact iterEvents_usesInterior _ _ _ ev ha

/-- C4: during each training pass, `update_grid_from_samples` runs in exactly
the iterations whose index is a multiple of 5 and less than 50 — with
`steps = 20` precisely iterations 0, 5, 10, 15 — and in no other iteration,
always on the interior batch. -/
theorem C4_grid_schedule {θ σ φ : Type} (lib : LibOps θ σ φ) (sinq : ℚ → ℚ) (piq : ℚ)
    (st : ProgState θ) :
    steps = 20
    ∧ (fit lib sinq piq steps st).2.filterMap gridIter = [0, 5, 10, 15]
    ∧ (∀ i b, Event.gridUpdate i b ∈ (fit lib sinq piq steps st).2
        ↔ (i % 5 = 0 ∧ i < 50 ∧ i < steps ∧ b = st.x_i)) := by
  refine ⟨rfl, ?_, ?_⟩
  · rw [fit_trace, filterMap_flatMap]
    simp only [iterEvents_gridIter]
    decide
  · intro i b
    rw [fit_trace]
    constructor
    · intro h
      obtain ⟨a, haR, haE⟩ := List.mem_flatMap.1 h
      cases hg : gridCond a <;> simp [iterEvents, hg] at haE
      obtain ⟨rfl, rfl⟩ := haE
      simp only [gridCond, Bool.and_eq_true, beq_iff_eq, decide_eq_true_eq] at hg
      exact ⟨hg.1, hg.2, List.mem_range.1 haR, rfl⟩
    · rintro ⟨h5, h50, hlt, rfl⟩
      refine List.mem_flatMap.2 ⟨i, List.mem_range.2 hlt, ?_⟩
      have hg : gridCond i = true := by
        simp only [gridCond, Bool.and_eq_true, beq_iff_eq, decide_eq_true_eq]
        exact ⟨h5, h50⟩
      simp [iterEvents, hg]

/-- C5 counterexample: the training loop mutates program state other than the
model parameters — after one pass the global `pde_loss` (unset before, i.e.
`none`) holds a value, refuting that the model's parameter tensors are the
only mutated shared state. -/
theorem C5_counterexample :
    ¬ ((fit trivLib id 1 1 ⟨(), none, none, [((0 : ℚ), (0 : ℚ))], [((0 : ℚ), (0 : ℚ))]⟩).1.pde_loss
        = (⟨(), none, none, [((0 : ℚ), (0 : ℚ))], [((0 : ℚ), (0 : ℚ))]⟩ : ProgState Unit).pde_loss) := by
  simp [fit, fitLoop, fitIter, trivLib, show List.range 1 = [0] from rfl]

/-- C5 (amended): execution is sequential, and the state mutated by the
training loop comprises the model parameters, the globals
`pde_loss`/`bc_loss` assigned on each closure invocation, and the per-pass
optimizer's internal state; the remaining program state — the sampled batches
`x_i` and `x_b` — is never modified. -/
theorem C5_mutable_state {θ σ φ : Type} (lib : LibOps θ σ φ) (sinq : ℚ → ℚ) (piq : ℚ)
    (n : ℕ) (st : ProgState θ) :
    (fit lib sinq piq n st).1.x_i = st.x_i ∧ (fit lib sinq piq n st).1.x_b = st.x_b :=
  ⟨rfl, rfl⟩

/-- C6: the notebook's stages run in the fixed order: sample interior and
boundary points, a 20-step training pass, fixing the four first-layer
sub-units to `'x'` and the two second-layer sub-units to `'sin'`, the same
20-step training pass again, and only then the formula extraction; none of
these stages is reordered or repeated. -/
theorem C6_stage_sequence {θ σ φ : Type} (lib : LibOps θ σ φ) (sinq : ℚ → ℚ) (piq : ℚ)
    (rand : ℕ → ℚ × ℚ) :
    mainStages (notebook lib sinq piq rand).2.2
      = [Stage.sampleInterior, Stage.sampleBoundary, Stage.fitPass 20,
          Stage.fixSym 0 0 0 SymFn.x, Stage.fixSym 0 0 1 SymFn.x,
          Stage.fixSym 0 1 0 SymFn.x, Stage.fixSym 0 1 1 SymFn.x,
          Stage.fixSym 1 0 0 SymFn.sin, Stage.fixSym 1 1 0 SymFn.sin,
          Stage.fitPass 20, Stage.extractFormula]
    ∧ steps = 20 := ⟨rfl, rfl⟩

/-- C3: the boundary batch `x_b` is the concatenation, in order, of the four
edges of the 21×21 meshgrid of `[-1,1]²` — the edge `x = -1` (`xb1`), the edge
`x = +1` (`xb2`), the edge `y = -1` (`xb3`), the edge `y = +1` (`xb4`) — so it
has exactly `4 * 21 = 84` rows and every row has at least one coordinate equal
to `-1` or `+1`. -/
theorem C3_boundary_batch :
    xb1 = y_mesh.map (fun y => ((-1 : ℚ), y))
    ∧ xb2 = y_mesh.map (fun y => ((1 : ℚ), y))
    ∧ xb3 = x_mesh.map (fun x => (x, (-1 : ℚ)))
    ∧ xb4 = x_mesh.map (fun x => (x, (1 : ℚ)))
    ∧ x_b = xb1 ++ xb2 ++ xb3 ++ xb4
    ∧ x_mesh.length = 21 ∧ y_mesh.length = 21
    ∧ x_b.length = 4 * 21
    ∧ ∀ p ∈ x_b, p.1 = -1 ∨ p.1 = 1 ∨ p.2 = -1 ∨ p.2 = 1 := by
  rw [x_mesh_eq, y_mesh_eq, xb1_eq, xb2_eq, xb3_eq, xb4_eq, x_b_eq]
  exact ⟨rfl, rfl, rfl, rfl, rfl, by decide, by decide, by decide, by decide⟩

/-- C9: the concatenated boundary batch contains duplicates: each of the four
corners of the square appears exactly twice in `x_b` — once from each of the
two edges meeting at that corner — so the 84 rows contain only 80 distinct
points. -/
theorem C9_corner_duplicates :
    x_b.count ((-1 : ℚ), (-1 : ℚ)) = 2 ∧ x_b.count ((-1 : ℚ), (1 : ℚ)) = 2
    ∧ x_b.count ((1 : ℚ), (-1 : ℚ)) = 2 ∧ x_b.count ((1 : ℚ), (1 : ℚ)) = 2
    ∧ xb1.count ((-1 : ℚ), (-1 : ℚ)) = 1 ∧ xb3.count ((-1 : ℚ), (-1 : ℚ)) = 1
    ∧ xb1.count ((-1 : ℚ), (1 : ℚ)) = 1 ∧ xb4.count ((-1 : ℚ), (1 : ℚ)) = 1
    ∧ xb2.count ((1 : ℚ), (-1 : ℚ)) = 1 ∧ xb3.count ((1 : ℚ), (-1 : ℚ)) = 1
    ∧ xb2.count ((1 : ℚ), (1 : ℚ)) = 1 ∧ xb4.count ((1 : ℚ), (1 : ℚ)) = 1
    ∧ x_b.length = 84 ∧ x_b.dedup.length = 80 := by
  rw [xb1_eq, xb2_eq, xb3_eq, xb4_eq, x_b_eq]
  decide

/-- One loop iteration never reads the incoming globals `pde_loss`/`bc_loss`
(it overwrites them from the step's closure result). -/
theorem fitIter_globals_indep {θ σ φ : Type} (lib : LibOps θ σ φ) (sinq : ℚ → ℚ) (piq : ℚ)
    (xi xb : List Point) (o : σ) (p : θ) (pl bl pl' bl' : Option ℚ) (tr : List Event) (i : ℕ) :
    fitIter lib sinq piq xi xb ((o, p, pl, bl), tr) i
      = fitIter lib sinq piq xi xb ((o, p, pl', bl'), tr) i := rfl

/-- The training fold depends on the incoming globals only when it runs zero
iterations: optimizer state, parameters and trace never depend on them, and
after at least one iteration neither do the outgoing globals. -/
theorem fitLoop_globals_indep {θ σ φ : Type} (lib : LibOps θ σ φ) (sinq : ℚ → ℚ) (piq : ℚ)
    (xi xb : List Point) (l : List ℕ) (o : σ) (p : θ) (pl bl pl' bl' : Option ℚ)
    (tr : List Event) :
    (l.foldl (fitIter lib sinq piq xi xb) ((o, p, pl, bl), tr)).1.1
        = (l.foldl (fitIter lib sinq piq xi xb) ((o, p, pl', bl'), tr)).1.1
    ∧ (l.foldl (fitIter lib sinq piq xi xb) ((o, p, pl, bl), tr)).1.2.1
        = (l.foldl (fitIter lib sinq piq xi xb) ((o, p, pl', bl'), tr)).1.2.1
    ∧ (l.foldl (fitIter lib sinq piq xi xb) ((o, p, pl, bl), tr)).2
        = (l.foldl (fitIter lib sinq piq xi xb) ((o, p, pl', bl'), tr)).2
    ∧ (l ≠ [] →
        (l.foldl (fitIter lib sinq piq xi xb) ((o, p, pl, bl), tr)).1.2.2
          = (l.foldl (fitIter lib sinq piq xi xb) ((o, p, pl', bl'), tr)).1.2.2) := by
  cases l with
  | nil => exact ⟨rfl, rfl, rfl, fun h => absurd rfl h⟩
  | cons a t =>
      rw [List.foldl_cons, List.foldl_cons,
        fitIter_globals_indep lib sinq piq xi xb o p pl bl pl' bl' tr a]
      exact ⟨rfl, rfl, rfl, fun _ => rfl⟩

/-- C10: each call to `fit()` constructs a brand-new LBFGS optimizer from the
model's current parameters, so nothing of a previous pass's optimizer state
can influence a later pass: a pass's entire outcome is a function of the
inherited parameters (and the immutable sampled batches) alone — in
particular it is independent of the globals left over from an earlier pass,
which it overwrites before reading whenever it runs at least one
iteration. -/
theorem C10_fresh_optimizer {θ σ φ : Type} (lib : LibOps θ σ φ) (sinq : ℚ → ℚ) (piq : ℚ)
    (n : ℕ) (s1 s2 : ProgState θ)
    (hp : s1.params = s2.params) (hi : s1.x_i = s2.x_i) (hb : s1.x_b = s2.x_b) :
    (∀ st : ProgState θ,
        fit lib sinq piq n st
          = (let r := fitLoop lib sinq piq st.x_i st.x_b n (lib.lbfgsInit st.params)
                st.params st.pde_loss st.bc_loss
             ({ st with params := r.1.2.1, pde_loss := r.1.2.2.1, bc_loss := r.1.2.2.2 }, r.2)))
    ∧ (fit lib sinq piq n s1).1.params = (fit lib sinq piq n s2).1.params
    ∧ (fit lib sinq piq n s1).2 = (fit lib sinq piq n s2).2
    ∧ (1 ≤ n →
        (fit lib sinq piq n s1).1.pde_loss = (fit lib sinq piq n s2).1.pde_loss
        ∧ (fit lib sinq piq n s1).1.bc_loss = (fit lib sinq piq n s2).1.bc_loss) := by
  have key := fitLoop_globals_indep lib sinq piq s2.x_i s2.x_b (List.range n)
    (lib.lbfgsInit s2.params) s2.params s1.pde_loss s1.bc_loss s2.pde_loss s2.bc_loss []
  have hne : (1 ≤ n) → List.range n ≠ [] := by
    intro hn
    rw [Ne, List.range_eq_nil]
    omega
  refine ⟨fun st => rfl, ?_, ?_, fun hn => ⟨?_, ?_⟩⟩
  · show (fitLoop lib sinq piq s1.x_i s1.x_b n (lib.lbfgsInit s1.params) s1.params
        s1.pde_loss s1.bc_loss).1.2.1
      = (fitLoop lib sinq piq s2.x_i s2.x_b n (lib.lbfgsInit s2.params) s2.params
        s2.pde_loss s2.bc_loss).1.2.1
    rw [hp, hi, hb]
    exact key.2.1
  · show (fitLoop lib sinq piq s1.x_i s1.x_b n (lib.lbfgsInit s1.params) s1.params
        s1.pde_loss s1.bc_loss).2
      = (fitLoop lib sinq piq s2.x_i s2.x_b n (lib.lbfgsInit s2.params) s2.params
        s2.pde_loss s2.bc_loss).2
    rw [hp, hi, hb]
    exact key.2.2.1
  · show (fitLoop lib sinq piq s1.x_i s1.x_b n (lib.lbfgsInit s1.params) s1.params
        s1.pde_loss s1.bc_loss).1.2.2.1
      = (fitLoop lib sinq piq s2.x_i s2.x_b n (lib.lbfgsInit s2.params) s2.params
        s2.pde_loss s2.bc_loss).1.2.2.1
    rw [hp, hi, hb]
    exact congrArg Prod.fst (key.2.2.2 (hne hn))
  · show (fitLoop lib sinq piq s1.x_i s1.x_b n (lib.lbfgsInit s1.params) s1.params
        s1.pde_loss s1.bc_loss).1.2.2.2
      = (fitLoop lib sinq piq s2.x_i s2.x_b n (lib.lbfgsInit s2.params) s2.params
        s2.pde_loss s2.bc_loss).1.2.2.2
    rw [hp, hi, hb]
    exact congrArg Prod.snd (key.2.2.2 (hne hn))

/-- Witness for C10 at a concrete input: two states sharing parameters and
batches but with different leftover globals produce the same parameters and
the same globals after one iteration. -/
theorem C10_witness :
    (fit trivLib id 1 1 ⟨(), none, none, [], []⟩).1.params
      = (fit trivLib id 1 1 ⟨(), some 7, some 3, [], []⟩).1.params
    ∧ (fit trivLib id 1 1 ⟨(), none, none, [], []⟩).1.pde_loss
      = (fit trivLib id 1 1 ⟨(), some 7, some 3, [], []⟩).1.pde_loss := by
  have h := C10_fresh_optimizer trivLib id 1 1 ⟨(), none, none, [], []⟩
    ⟨(), some 7, some 3, [], []⟩ rfl rfl rfl
  exact ⟨h.2.1, (h.2.2.2 (by norm_num)).1⟩

/-- Witness for C2 at a concrete input: a constant `torch.rand` stream with
coordinates in `[0, 1)`. -/
theorem C2_witness :
    (interior (fun _ => ((0 : ℚ), (1 : ℚ) / 2))).length = 441
    ∧ (∀ p ∈ interior (fun _ => ((0 : ℚ), (1 : ℚ) / 2)),
        -1 ≤ p.1 ∧ p.1 ≤ 1 ∧ -1 ≤ p.2 ∧ p.2 ≤ 1)
    ∧ (∀ ev ∈ (notebook trivLib id 1 (fun _ => ((0 : ℚ), (1 : ℚ) / 2))).2.1,
        usesInterior ev = interior (fun _ => ((0 : ℚ), (1 : ℚ) / 2))) := by
  have h := C2_interior_batch trivLib id 1 (fun _ => ((0 : ℚ), (1 : ℚ) / 2))
    (fun _ => by norm_num)
  exact ⟨h.2.2.1, h.2.2.2.1, h.2.2.2.2⟩

/-- Witness for C4 at a concrete input: iteration 5 of a pass performs a grid
update on the (empty) interior batch. -/
theorem C4_witness :
    Event.gridUpdate 5 [] ∈ (fit trivLib id 1 steps
      (⟨(), none, none, [], []⟩ : ProgState Unit)).2 :=
  ((C4_grid_schedule trivLib id 1 ⟨(), none, none, [], []⟩).2.2 5 []).mpr
    ⟨by norm_num, by norm_num, by norm_num [steps], rfl⟩

/-! ### Exception propagation (C8) -/

/-- Bind on a successful computation. -/
theorem ok_bind {ε α β : Type} (a : α) (f : α → Except ε β) :
    ((Except.ok a : Except ε α) >>= f) = f a := rfl

/-- A failing bind pinpoints the failing component. -/
theorem bind_eq_error {ε α β : Type} (x : Except ε α) (f : α → Except ε β) (e : ε)
    (h : (x >>= f) = Except.error e) :
    x = Except.error e ∨ ∃ v, x = Except.ok v ∧ f v = Except.error e := by
  cases x with
  | error e' =>
      left
      have hx : ((Except.error e' : Except ε α) >>= f) = (Except.error e' : Except ε β) := rfl
      rw [hx] at h
      injection h with h'
      rw [h']
  | ok v => exact Or.inr ⟨v, rfl, h⟩

/-- A `mapM` whose function always succeeds on the list succeeds. -/
theorem mapM_ok_of_forall {ε α β : Type} (f : α → Except ε β) :
    ∀ l : List α, (∀ a ∈ l, ∃ b, f a = Except.ok b) → ∃ l', l.mapM f = Except.ok l' := by
  intro l
  induction l with
  | nil => exact fun _ => ⟨[], rfl⟩
  | cons a t ih =>
      intro h
      obtain ⟨b, hb⟩ := h a (List.mem_cons_self a t)
      obtain ⟨t', ht⟩ := ih (fun x hx => h x (List.mem_cons_of_mem a hx))
      refine ⟨b :: t', ?_⟩
      rw [List.mapM_cons, hb, ok_bind, ht, ok_bind]
      rfl

/-- A failing `mapM` pinpoints a failing element. -/
theorem mapM_error {ε α β : Type} (f : α → Except ε β) (e : ε) :
    ∀ l : List α, l.mapM f = Except.error e → ∃ a ∈ l, f a = Except.error e := by
  intro l
  induction l with
  | nil =>
      intro h
      rw [List.mapM_nil] at h
      exact absurd h (fun hh => Except.noConfusion hh)
  | cons a t ih =>
      intro h
      rw [List.mapM_cons] at h
      rcases bind_eq_error _ _ _ h with h1 | ⟨b, _, h2⟩
      · exact ⟨a, List.mem_cons_self a t, h1⟩
      · rcases bind_eq_error _ _ _ h2 with h3 | ⟨t', _, h4⟩
        · obtain ⟨x, hx, hfx⟩ := ih h3
          exact ⟨x, List.mem_cons_of_mem a hx, hfx⟩
        · exact absurd h4 (fun hh => Except.noConfusion hh)

/-- A `foldlM` whose function always succeeds succeeds. -/
theorem foldlM_ok_of_forall {ε α β : Type} (f : β → α → Except ε β) :
    ∀ l : List α, (∀ acc a, a ∈ l → ∃ r, f acc a = Except.ok r) →
      ∀ acc, ∃ r, l.foldlM f acc = Except.ok r := by
  intro l
  induction l with
  | nil => exact fun _ acc => ⟨acc, rfl⟩
  | cons a t ih =>
      intro h acc
      obtain ⟨r1, h1⟩ := h acc a (List.mem_cons_self a t)
      obtain ⟨r2, h2⟩ := ih (fun acc' x hx => h acc' x (List.mem_cons_of_mem a hx)) r1
      refine ⟨r2, ?_⟩
      rw [List.foldlM_cons, h1, ok_bind, h2]

/-- A failing `foldlM` pinpoints a failing application. -/
theorem foldlM_error {ε α β : Type} (f : β → α → Except ε β) (e : ε) :
    ∀ (l : List α) (acc : β), l.foldlM f acc = Except.error e →
      ∃ acc' a, a ∈ l ∧ f acc' a = Except.error e := by
  intro l
  induction l with
  | nil =>
      intro acc h
      rw [List.foldlM_nil] at h
      exact absurd h (fun hh => Except.noConfusion hh)
  | cons a t ih =>
      intro acc h
      rw [List.foldlM_cons] at h
      rcases bind_eq_error _ _ _ h with h1 | ⟨r1, _, h2⟩
      · exact ⟨acc, a, List.mem_cons_self a t, h1⟩
      · obtain ⟨acc', x, hx, hfx⟩ := ih r1 h2
        exact ⟨acc', x, List.mem_cons_of_mem a hx, hfx⟩

/-- Injection helpers into `LibRaised`. -/
theorem libRaised_mkModel {θ σ φ ε : Type} {lib : LibOpsE θ σ φ ε} {e : ε} {c}
    (h : lib.mkModel c = Except.error e) : LibRaised lib e := Or.inl ⟨c, h⟩

/-- Corresponding injection for `forward`. -/
theorem libRaised_forward {θ σ φ ε : Type} {lib : LibOpsE θ σ φ ε} {e : ε} {p q}
    (h : lib.forward p q = Except.error e) : LibRaised lib e :=
  Or.inr (Or.inl ⟨p, q, h⟩)

/-- Corresponding injection for `jacobian`. -/
theorem libRaised_jacobian {θ σ φ ε : Type} {lib : LibOpsE θ σ φ ε} {e : ε} {p f q}
    (h : lib.jacobian p f q = Except.error e) : LibRaised lib e :=
  Or.inr (Or.inr (Or.inl ⟨p, f, q, h⟩))

/-- Corresponding injection for `update_grid_from_samples`. -/
theorem libRaised_updateGrid {θ σ φ ε : Type} {lib : LibOpsE θ σ φ ε} {e : ε} {p x}
    (h : lib.update_grid_from_samples p x = Except.error e) : LibRaised lib e :=
  Or.inr (Or.inr (Or.inr (Or.inl ⟨p, x, h⟩)))

/-- Corresponding injection for `lbfgsInit`. -/
theorem libRaised_lbfgsInit {θ σ φ ε : Type} {lib : LibOpsE θ σ φ ε} {e : ε} {p}
    (h : lib.lbfgsInit p = Except.error e) : LibRaised lib e :=
  Or.inr (Or.inr (Or.inr (Or.inr (Or.inl ⟨p, h⟩))))

/-- Corresponding injection for `lbfgsStep`. -/
theorem libRaised_lbfgsStep {θ σ φ ε : Type} {lib : LibOpsE θ σ φ ε} {e : ε} {o p f}
    (h : lib.lbfgsStep o p f = Except.error e) : LibRaised lib e :=
  Or.inr (Or.inr (Or.inr (Or.inr (Or.inr (Or.inl ⟨o, p, f, h⟩)))))

/-- Corresponding injection for `plot`. -/
theorem libRaised_plot {θ σ φ ε : Type} {lib : LibOpsE θ σ φ ε} {e : ε} {p b}
    (h : lib.plot p b = Except.error e) : LibRaised lib e :=
  Or.inr (Or.inr (Or.inr (Or.inr (Or.inr (Or.inr (Or.inl ⟨p, b, h⟩))))))

/-- Corresponding injection for `fix_symbolic`. -/
theorem libRaised_fixSymbolic {θ σ φ ε : Type} {lib : LibOpsE θ σ φ ε} {e : ε} {p l i j f}
    (h : lib.fix_symbolic p l i j f = Except.error e) : LibRaised lib e :=
  Or.inr (Or.inr (Or.inr (Or.inr (Or.inr (Or.inr (Or.inr (Or.inl ⟨p, l, i, j, f, h⟩)))))))

/-- Corresponding injection for `symbolic_formula`. -/
theorem libRaised_symbolicFormula {θ σ φ ε : Type} {lib : LibOpsE θ σ φ ε} {e : ε} {p d}
    (h : lib.symbolic_formula p d = Except.error e) : LibRaised lib e :=
  Or.inr (Or.inr (Or.inr (Or.inr (Or.inr (Or.inr (Or.inr (Or.inr ⟨p, d, h⟩)))))))

/-- If `forward` never fails, neither does the per-row output vector. -/
theorem fwdRowE_total {θ σ φ ε : Type} (lib : LibOpsE θ σ φ ε)
    (hfwd : ∀ p q, ∃ v, lib.forward p q = Except.ok v) (p : θ) :
    ∀ r, ∃ w, fwdRowE lib p r = Except.ok w := by
  intro r
  obtain ⟨v, hv⟩ := hfwd p r
  exact ⟨[v], by rw [fwdRowE, hv, ok_bind]; rfl⟩

/-- If `forward` and `jacobian` never fail, neither does `sol_D1_fun`. -/
theorem sol_D1_funE_total {θ σ φ ε : Type} (lib : LibOpsE θ σ φ ε)
    (hfwd : ∀ p q, ∃ v, lib.forward p q = Except.ok v)
    (hjac : ∀ p f q, (∀ r, ∃ w, f r = Except.ok w) → ∃ v, lib.jacobian p f q = Except.ok v)
    (p : θ) : ∀ q, ∃ w, sol_D1_funE lib p q = Except.ok w := by
  intro q
  obtain ⟨M, hM⟩ := hjac p (fwdRowE lib p) q (fwdRowE_total lib hfwd p)
  exact ⟨M.headI, by rw [sol_D1_funE, hM, ok_bind]; rfl⟩

/-- If `forward` and `jacobian` never fail, every closure invocation
succeeds. -/
theorem closureE_total {θ σ φ ε : Type} (lib : LibOpsE θ σ φ ε)
    (hfwd : ∀ p q, ∃ v, lib.forward p q = Except.ok v)
    (hjac : ∀ p f q, (∀ r, ∃ w, f r = Except.ok w) → ∃ v, lib.jacobian p f q = Except.ok v)
    (sinq : ℚ → ℚ) (piq : ℚ) (xi xb : List Point) (p : θ) :
    ∃ v, closureE lib sinq piq xi xb p = Except.ok v := by
  obtain ⟨l1, h1⟩ := mapM_ok_of_forall (sol_D1_funE lib p) xi
    (fun a _ => sol_D1_funE_total lib hfwd hjac p a)
  obtain ⟨l2, h2⟩ := mapM_ok_of_forall (fun q => lib.jacobian p (sol_D1_funE lib p) q) xi
    (fun a _ => hjac p (sol_D1_funE lib p) a (sol_D1_funE_total lib hfwd hjac p))
  obtain ⟨l3, h3⟩ := mapM_ok_of_forall (lib.forward p) xb (fun a _ => hfwd p a)
  rw [closureE, h1, ok_bind, h2, ok_bind, h3, ok_bind]
  exact ⟨_, rfl⟩

/-- If the library's operations never fail, one loop iteration succeeds. -/
theorem fitIterE_total {θ σ φ ε : Type} (lib : LibOpsE θ σ φ ε)
    (hfwd : ∀ p q, ∃ v, lib.forward p q = Except.ok v)
    (hjac : ∀ p f q, (∀ r, ∃ w, f r = Except.ok w) → ∃ v, lib.jacobian p f q = Except.ok v)
    (hgrid : ∀ p x, ∃ v, lib.update_grid_from_samples p x = Except.ok v)
    (hstep : ∀ o p f, (∀ t, ∃ w, f t = Except.ok w) → ∃ v, lib.lbfgsStep o p f = Except.ok v)
    (sinq : ℚ → ℚ) (piq : ℚ) (xi xb : List Point)
    (acc : σ × θ × Option ℚ × Option ℚ) (i : ℕ) :
    ∃ r, fitIterE lib sinq piq xi xb acc i = Except.ok r := by
  rw [fitIterE]
  split
  · obtain ⟨p1, hp1⟩ := hgrid acc.2.1 xi
    obtain ⟨s, hs⟩ := hstep acc.1 p1 (closureE lib sinq piq xi xb)
      (fun t => closureE_total lib hfwd hjac sinq piq xi xb t)
    obtain ⟨l, hl⟩ := mapM_ok_of_forall (lib.forward s.2.1) xi (fun a _ => hfwd s.2.1 a)
    simp only [hp1, ok_bind, hs, hl]
    exact ⟨_, rfl⟩
  · obtain ⟨s, hs⟩ := hstep acc.1 acc.2.1 (closureE lib sinq piq xi xb)
      (fun t => closureE_total lib hfwd hjac sinq piq xi xb t)
    obtain ⟨l, hl⟩ := mapM_ok_of_forall (lib.forward s.2.1) xi (fun a _ => hfwd s.2.1 a)
    simp only [ok_bind, hs, hl, pure_bind]
    exact ⟨_, rfl⟩

/-- A failing loop iteration pinpoints a failing library call. -/
theorem fitIterE_error {θ σ φ ε : Type} (lib : LibOpsE θ σ φ ε) (sinq : ℚ → ℚ) (piq : ℚ)
    (xi xb : List Point) (acc : σ × θ × Option ℚ × Option ℚ) (i : ℕ) (e : ε)
    (h : fitIterE lib sinq piq xi xb acc i = Except.error e) : LibRaised lib e := by
  rw [fitIterE] at h
  split at h
  · rcases bind_eq_error _ _ _ h with h1 | ⟨p1, _, h2⟩
    · exact libRaised_updateGrid h1
    · rcases bind_eq_error _ _ _ h2 with h3 | ⟨s, _, h4⟩
      · exact libRaised_lbfgsStep h3
      · rcases bind_eq_error _ _ _ h4 with h5 | ⟨l, _, h6⟩
        · obtain ⟨a, _, hfa⟩ := mapM_error _ _ _ h5
          exact libRaised_forward hfa
        · exact absurd h6 (fun hh => Except.noConfusion hh)
  · rcases bind_eq_error _ _ _ h with h1 | ⟨p1, _, h2⟩
    · exact absurd h1 (fun hh => Except.noConfusion hh)
    · rcases bind_eq_error _ _ _ h2 with h3 | ⟨s, _, h4⟩
      · exact libRaised_lbfgsStep h3
      · rcases bind_eq_error _ _ _ h4 with h5 | ⟨l, _, h6⟩
        · obtain ⟨a, _, hfa⟩ := mapM_error _ _ _ h5
          exact libRaised_forward hfa
        · exact absurd h6 (fun hh => Except.noConfusion hh)

/-- If the library's operations never fail, a whole training pass succeeds. -/
theorem fitE_total {θ σ φ ε : Type} (lib : LibOpsE θ σ φ ε)
    (hfwd : ∀ p q, ∃ v, lib.forward p q = Except.ok v)
    (hjac : ∀ p f q, (∀ r, ∃ w, f r = Except.ok w) → ∃ v, lib.jacobian p f q = Except.ok v)
    (hgrid : ∀ p x, ∃ v, lib.update_grid_from_samples p x = Except.ok v)
    (hinit : ∀ p, ∃ v, lib.lbfgsInit p = Except.ok v)
    (hstep : ∀ o p f, (∀ t, ∃ w, f t = Except.ok w) → ∃ v, lib.lbfgsStep o p f = Except.ok v)
    (sinq : ℚ → ℚ) (piq : ℚ) (n : ℕ) (st : ProgState θ) :
    ∃ v, fitE lib sinq piq n st = Except.ok v := by
  obtain ⟨o0, h0⟩ := hinit st.params
  obtain ⟨r, hr⟩ := foldlM_ok_of_forall (fitIterE lib sinq piq st.x_i st.x_b) (List.range n)
    (fun acc a _ => fitIterE_total lib hfwd hjac hgrid hstep sinq piq st.x_i st.x_b acc a)
    (o0, st.params, st.pde_loss, st.bc_loss)
  rw [fitE, h0, ok_bind, hr, ok_bind]
  exact ⟨_, rfl⟩

/-- A failing training pass pinpoints a failing library call. -/
theorem fitE_error {θ σ φ ε : Type} (lib : LibOpsE θ σ φ ε) (sinq : ℚ → ℚ) (piq : ℚ)
    (n : ℕ) (st : ProgState θ) (e : ε)
    (h : fitE lib sinq piq n st = Except.error e) : LibRaised lib e := by
  rw [fitE] at h
  rcases bind_eq_error _ _ _ h with h1 | ⟨o0, _, h2⟩
  · exact libRaised_lbfgsInit h1
  · rcases bind_eq_error _ _ _ h2 with h3 | ⟨r, _, h4⟩
    · obtain ⟨acc', a, _, hfa⟩ := foldlM_error _ _ _ _ h3
      exact fitIterE_error lib sinq piq st.x_i st.x_b acc' a e hfa
    · exact absurd h4 (fun hh => Except.noConfusion hh)

/-- If the library's operations never fail, the whole notebook run
succeeds. -/
theorem notebookE_total {θ σ φ ε : Type} (lib : LibOpsE θ σ φ ε)
    (hT : TotalLibE lib) (sinq : ℚ → ℚ) (piq : ℚ) (rand : ℕ → ℚ × ℚ) :
    ∃ v, notebookE lib sinq piq rand = Except.ok v := by
  obtain ⟨hmk, hfwd, hjac, hgrid, hinit, hstep, hplot, hfix, hform⟩ := hT
  obtain ⟨m0, hm⟩ := hmk kanCfg
  obtain ⟨st1, h1⟩ := fitE_total lib hfwd hjac hgrid hinit hstep sinq piq steps
    ⟨m0, none, none, interior rand, x_b⟩
  obtain ⟨fig, hfig⟩ := hplot st1.params 10
  have hfix1 : ∀ (p : θ) (i : ℕ), ∃ v, ((List.range 2).foldlM (fun p2 j => do
      pure (← lib.fix_symbolic p2 0 i j SymFn.x).1) p) = Except.ok v := by
    intro p i
    refine foldlM_ok_of_forall _ _ (fun p2 j _ => ?_) p
    obtain ⟨w, hw⟩ := hfix p2 0 i j SymFn.x
    exact ⟨w.1, by rw [hw, ok_bind]; rfl⟩
  obtain ⟨p1, hp1⟩ := foldlM_ok_of_forall _ (List.range 2) (fun p i _ => hfix1 p i) st1.params
  have hfix2 : ∀ (p : θ) (i : ℕ), ∃ v, (do
      pure (← lib.fix_symbolic p 1 i 0 SymFn.sin).1 : Except ε θ) = Except.ok v := by
    intro p i
    obtain ⟨w, hw⟩ := hfix p 1 i 0 SymFn.sin
    exact ⟨w.1, by rw [hw, ok_bind]; rfl⟩
  obtain ⟨p2, hp2⟩ := foldlM_ok_of_forall _ (List.range 2) (fun p i _ => hfix2 p i) p1
  obtain ⟨st2, h2⟩ := fitE_total lib hfwd hjac hgrid hinit hstep sinq piq steps
    { st1 with params := p2 }
  obtain ⟨fm, hfm⟩ := hform st2.params 5
  simp only [notebookE, hm, ok_bind, h1, hfig, hp1, hp2, h2, hfm]
  exact ⟨_, rfl⟩

/-- A failing notebook run pinpoints a failing library call: the notebook
itself catches nothing and raises nothing of its own. -/
theorem notebookE_error {θ σ φ ε : Type} (lib : LibOpsE θ σ φ ε)
    (sinq : ℚ → ℚ) (piq : ℚ) (rand : ℕ → ℚ × ℚ) (e : ε)
    (h : notebookE lib sinq piq rand = Except.error e) : LibRaised lib e := by
  rw [notebookE] at h
  rcases bind_eq_error _ _ _ h with h1 | ⟨m0, _, h2⟩
  · exact libRaised_mkModel h1
  · rcases bind_eq_error _ _ _ h2 with h3 | ⟨st1, _, h4⟩
    · exact fitE_error _ _ _ _ _ _ h3
    · rcases bind_eq_error _ _ _ h4 with h5 | ⟨fig, _, h6⟩
      · exact libRaised_plot h5
      · rcases bind_eq_error _ _ _ h6 with h7 | ⟨p1, _, h8⟩
        · obtain ⟨acc1, a, _, hfa⟩ := foldlM_error _ _ _ _ h7
          obtain ⟨acc2, b, _, hfb⟩ := foldlM_error _ _ _ _ hfa
          rcases bind_eq_error _ _ _ hfb with h9 | ⟨w, _, h10⟩
          · exact libRaised_fixSymbolic h9
          · exact absurd h10 (fun hh => Except.noConfusion hh)
        · rcases bind_eq_error _ _ _ h8 with h9 | ⟨p2, _, h10⟩
          · obtain ⟨acc1, a, _, hfa⟩ := foldlM_error _ _ _ _ h9
            rcases bind_eq_error _ _ _ hfa with h11 | ⟨w, _, h12⟩
            · exact libRaised_fixSymbolic h11
            · exact absurd h12 (fun hh => Except.noConfusion hh)
          · rcases bind_eq_error _ _ _ h10 with h11 | ⟨st2, _, h12⟩
            · exact fitE_error _ _ _ _ _ _ h11
            · rcases bind_eq_error _ _ _ h12 with h13 | ⟨fm, _, h14⟩
              · exact libRaised_symbolicFormula h13
              · exact absurd h14 (fun hh => Except.noConfusion hh)

/-- C8: the notebook contains no error handling of its own: whenever every
library operation it invokes succeeds, the notebook run succeeds (the
notebook itself raises nothing on any path), and whenever the run fails with
an exception `e`, some library operation raised exactly `e`, propagated to
the top level uncaught. -/
theorem C8_no_error_handling {θ σ φ ε : Type} (lib : LibOpsE θ σ φ ε)
    (sinq : ℚ → ℚ) (piq : ℚ) (rand : ℕ → ℚ × ℚ) :
    (TotalLibE lib → ∃ v, notebookE lib sinq piq rand = Except.ok v)
    ∧ (∀ e, notebookE lib sinq piq rand = Except.error e → LibRaised lib e) :=
  ⟨fun hT => notebookE_total lib hT sinq piq rand,
   fun e he => notebookE_error lib sinq piq rand e he⟩

/-- Witness for C8 at a concrete input: the trivial never-failing library
makes the whole notebook run succeed. -/
theorem C8_witness :
    ∃ v, notebookE trivLibE id 1 (fun _ => ((0 : ℚ), (0 : ℚ))) = Except.ok v := by
  refine (C8_no_error_handling trivLibE id 1 (fun _ => ((0 : ℚ), (0 : ℚ)))).1 ?_
  refine ⟨fun c => ⟨(), rfl⟩, fun p q => ⟨0, rfl⟩,
    fun p f q _ => ⟨[[0, 0], [0, 0]], rfl⟩, fun p x => ⟨p, rfl⟩, fun p => ⟨(), rfl⟩,
    fun o p f hf => ?_, fun p b => ⟨(), rfl⟩, fun p l i j f => ⟨(p, 1), rfl⟩,
    fun p d => ⟨(), rfl⟩⟩
  obtain ⟨w, hw⟩ := hf p
  refine ⟨((), p, w), ?_⟩
  show (f p).map (fun r => ((), p, r)) = Except.ok ((), p, w)
  rw [hw]
  rfl

end KanPDE
